import Mathlib

/-!
Shallow embedding of the rusty_payment_processor core (src/account.rs together
with src/transaction.rs).  Machine u64 balances are modelled as natural numbers
below 2 ^ 64 and u64 arithmetic is written out as wrapping arithmetic modulo
2 ^ 64 (the release-profile Rust semantics of += and -=).  The f32 amounts are
modelled as exact rationals; get_amount_in_cent_parts mirrors the Rust
expression (amount * 10000.0).round() as u64, that is: round half away from
zero followed by the saturating float-to-integer cast (negative values clamp
to 0, values above u64::MAX clamp to 2 ^ 64 - 1).  The HashMap of stored
transactions is modelled as an association list with first-match lookup,
replace-or-append insertion, and an in-place flag update standing for the
get_mut mutation of the under_dispute boolean.
-/

namespace RustyPayments

/-- Kinds of incoming transactions, from src/transaction.rs. -/
inductive TransactionType where
  | Deposit
  | Withdrawal
  | Dispute
  | Resolve
  | Chargeback
  deriving DecidableEq

/-- One transaction record, from src/transaction.rs.  client_id is a u16 and
tx_id a u32 in Rust; the handlers only copy them around, so plain naturals
suffice.  amount is the optional f32, modelled as an exact rational. -/
structure Transaction where
  transaction_type : TransactionType
  client_id : ℕ
  tx_id : ℕ
  amount : Option ℚ
  deriving DecidableEq

/-- The error type of src/account.rs. -/
inductive OperationError where
  | InsufficientBalance (client_id tx_id : ℕ)
  | InvalidData (client_id tx_id : ℕ)
  | TransactionNotFound (client_id tx_id : ℕ)
  | DisputeAlreadyUnderDispute (client_id tx_id : ℕ)
  | ResolveNotUnderDispute (client_id tx_id : ℕ)
  | ChargebackNotUnderDispute (client_id tx_id : ℕ)
  | InvalidTransactionForDispute (client_id tx_id : ℕ)
  | InvalidTransactionForChargeback (client_id tx_id : ℕ)
  deriving DecidableEq

/-- Modulus of the u64 machine integers holding the held and total balances. -/
def u64Mod : ℕ := 2 ^ 64

/-- Wrapping u64 addition (Rust += in release profile). -/
def wadd (x y : ℕ) : ℕ := (x + y) % u64Mod

/-- Wrapping u64 subtraction (Rust -= in release profile). -/
def wsub (x y : ℕ) : ℕ := (x + (u64Mod - y % u64Mod)) % u64Mod

/-- Rust f32::round: round to the nearest integer, halfway cases away from
zero. -/
def roundHalfAway (q : ℚ) : ℤ :=
  if 0 ≤ q then ⌊q + 1 / 2⌋ else -⌊-q + 1 / 2⌋

/-- Embedding of get_amount_in_cent_parts (src/account.rs line 301):
(amount * 10000.0).round() as u64.  The as-cast from float to u64 saturates:
negative results become 0 (Int.toNat) and results above u64::MAX become
u64::MAX (the min).  The f32 product is modelled as the exact rational
product; every concrete amount used in the theorems below is exactly
representable in f32 and so is its product with 10000.0. -/
def get_amount_in_cent_parts (amount : ℚ) : ℕ :=
  (min (roundHalfAway (amount * 10000)) (2 ^ 64 - 1)).toNat

/-- Embedding of get_amount_as_decimal (src/account.rs line 305); the f32
division at the reporting boundary is modelled as exact rational division. -/
def get_amount_as_decimal (amount : ℕ) : ℚ :=
  (amount : ℚ) / 10000

/-- The stored-transaction map: tx_id to (under_dispute, transaction). -/
abbrev TxMap := List (ℕ × (Bool × Transaction))

/-- HashMap::get / get_mut lookup. -/
def lookupTx : TxMap → ℕ → Option (Bool × Transaction)
  | [], _ => none
  | (k, v) :: rest, key => if k = key then some v else lookupTx rest key

/-- HashMap::insert: overwrite the entry for the key or add a new one. -/
def insertTx : TxMap → ℕ → Bool × Transaction → TxMap
  | [], key, v => [(key, v)]
  | (k, w) :: rest, key, v =>
      if k = key then (key, v) :: rest else (k, w) :: insertTx rest key v

/-- In-place update of the under_dispute flag obtained through get_mut. -/
def setFlagTx : TxMap → ℕ → Bool → TxMap
  | [], _, _ => []
  | (k, (fl, stored)) :: rest, key, b =>
      if k = key then (k, (b, stored)) :: rest
      else (k, (fl, stored)) :: setFlagTx rest key b

/-- The account state of src/account.rs. -/
structure Account where
  client_id : ℕ
  held : ℕ
  total : ℕ
  locked : Bool
  transactions : TxMap
  deriving DecidableEq

/-- Account::new. -/
def Account.new (client_id : ℕ) : Account :=
  { client_id := client_id, held := 0, total := 0, locked := false,
    transactions := [] }

/-- Account::deposit (src/account.rs lines 64-79).  Each handler returns the
state of &mut self after the call together with the optional error; every
early error return in the Rust code happens before any mutation, which the
error branches transcribe by returning the input state. -/
def Account.deposit (a : Account) (t : Transaction) :
    Account × Option OperationError :=
  match t.amount with
  | some amount =>
      ({ a with
          total := wadd a.total (get_amount_in_cent_parts amount),
          transactions := insertTx a.transactions t.tx_id (false, t) }, none)
  | none => (a, some (OperationError.InvalidData t.client_id t.tx_id))

/-- Account::withdraw (src/account.rs lines 81-105). -/
def Account.withdraw (a : Account) (t : Transaction) :
    Account × Option OperationError :=
  match t.amount with
  | some amount =>
      let amount_to_withdraw := get_amount_in_cent_parts amount
      if a.total < amount_to_withdraw then
        (a, some (OperationError.InsufficientBalance t.client_id t.tx_id))
      else
        ({ a with
            total := wsub a.total amount_to_withdraw,
            transactions := insertTx a.transactions t.tx_id (false, t) }, none)
  | none => (a, some (OperationError.InvalidData t.client_id t.tx_id))

/-- Account::dispute (src/account.rs lines 107-132).  The error payloads in
the found branch use the stored transaction (the Rust code shadows the
argument).  stored.amount.getD 0 stands for transaction.amount.unwrap():
stored transactions are always inserted with an amount present, so the panic
branch is unreachable on states the program builds. -/
def Account.dispute (a : Account) (t : Transaction) :
    Account × Option OperationError :=
  match lookupTx a.transactions t.tx_id with
  | some (under_dispute, stored) =>
      if under_dispute then
        (a, some (OperationError.DisputeAlreadyUnderDispute
          stored.client_id stored.tx_id))
      else
        ({ a with
            transactions := setFlagTx a.transactions t.tx_id true,
            held := wadd a.held
              (get_amount_in_cent_parts (stored.amount.getD 0)) }, none)
  | none => (a, some (OperationError.TransactionNotFound t.client_id t.tx_id))

/-- Account::resolve (src/account.rs lines 134-168).  On success the dispute
flag is cleared; the defensive kind check returns InvalidTransactionForDispute
without clearing the flag. -/
def Account.resolve (a : Account) (t : Transaction) :
    Account × Option OperationError :=
  match lookupTx a.transactions t.tx_id with
  | some (under_dispute, stored) =>
      if under_dispute then
        match stored.transaction_type with
        | TransactionType.Deposit =>
            ({ a with
                held := wsub a.held
                  (get_amount_in_cent_parts (stored.amount.getD 0)),
                transactions := setFlagTx a.transactions t.tx_id false }, none)
        | TransactionType.Withdrawal =>
            ({ a with
                held := wsub a.held
                  (get_amount_in_cent_parts (stored.amount.getD 0)),
                total := wadd a.total
                  (get_amount_in_cent_parts (stored.amount.getD 0)),
                transactions := setFlagTx a.transactions t.tx_id false }, none)
        | _ =>
            (a, some (OperationError.InvalidTransactionForDispute
              stored.client_id stored.tx_id))
      else
        (a, some (OperationError.ResolveNotUnderDispute
          stored.client_id stored.tx_id))
  | none => (a, some (OperationError.TransactionNotFound t.client_id t.tx_id))

/-- Account::chargeback (src/account.rs lines 170-201).  Uses a plain get, so
the dispute flag of the stored transaction is never cleared on this path. -/
def Account.chargeback (a : Account) (t : Transaction) :
    Account × Option OperationError :=
  match lookupTx a.transactions t.tx_id with
  | some (under_dispute, stored) =>
      if under_dispute then
        match stored.transaction_type with
        | TransactionType.Deposit =>
            ({ a with
                held := wsub a.held
                  (get_amount_in_cent_parts (stored.amount.getD 0)),
                total := wsub a.total
                  (get_amount_in_cent_parts (stored.amount.getD 0)),
                locked := true }, none)
        | _ =>
            (a, some (OperationError.InvalidTransactionForChargeback
              stored.client_id stored.tx_id))
      else
        (a, some (OperationError.ChargebackNotUnderDispute
          stored.client_id stored.tx_id))
  | none => (a, some (OperationError.TransactionNotFound t.client_id t.tx_id))

/-- Account::handle (src/account.rs lines 44-52). -/
def Account.handle (a : Account) (t : Transaction) :
    Account × Option OperationError :=
  match t.transaction_type with
  | TransactionType.Deposit => a.deposit t
  | TransactionType.Withdrawal => a.withdraw t
  | TransactionType.Dispute => a.dispute t
  | TransactionType.Resolve => a.resolve t
  | TransactionType.Chargeback => a.chargeback t

/-- Account::get_total. -/
def Account.get_total (a : Account) : ℚ := get_amount_as_decimal a.total

/-- Account::get_held. -/
def Account.get_held (a : Account) : ℚ := get_amount_as_decimal a.held

/-- Account::get_available (src/account.rs lines 211-217): 0 when
total < held, otherwise the decimal form of total. -/
def Account.get_available (a : Account) : ℚ :=
  if a.total < a.held then 0 else get_amount_as_decimal a.total

/-- Account::is_locked. -/
def Account.is_locked (a : Account) : Bool := a.locked

/-- Apply a list of transactions in order to one account, keeping the state
of each handler call (errors are reported and processing continues, as in
PaymentProcessor::process). -/
def applyAll : Account → List Transaction → Account
  | s, [] => s
  | s, t :: rest => applyAll (s.handle t).1 rest

/-- Sum of the converted amounts of the deposit records in a list (amountless
deposits contribute nothing; they are rejected as InvalidData). -/
def sumDepositCents : List Transaction → ℕ
  | [] => 0
  | t :: rest =>
      (match t.transaction_type, t.amount with
        | TransactionType.Deposit, some x => get_amount_in_cent_parts x
        | _, _ => 0) + sumDepositCents rest

/-- Sum of the converted amounts of the withdrawals that succeed when the
list is applied from the given state (mirroring the InsufficientBalance
guard of Account::withdraw). -/
def sumSuccessfulWithdrawalCents : Account → List Transaction → ℕ
  | _, [] => 0
  | s, t :: rest =>
      (match t.transaction_type, t.amount with
        | TransactionType.Withdrawal, some x =>
            if s.total < get_amount_in_cent_parts x then 0
            else get_amount_in_cent_parts x
        | _, _ => 0) + sumSuccessfulWithdrawalCents (s.handle t).1 rest

/-- Record builder for a deposit transaction, used for concrete test inputs. -/
def depositTx (c tx : ℕ) (x : ℚ) : Transaction :=
  { transaction_type := TransactionType.Deposit, client_id := c, tx_id := tx,
    amount := some x }

/-- Record builder for a withdrawal transaction. -/
def withdrawalTx (c tx : ℕ) (x : ℚ) : Transaction :=
  { transaction_type := TransactionType.Withdrawal, client_id := c, tx_id := tx,
    amount := some x }

/-- Record builder for a dispute transaction. -/
def disputeTx (c tx : ℕ) : Transaction :=
  { transaction_type := TransactionType.Dispute, client_id := c, tx_id := tx,
    amount := none }

/-- Record builder for a resolve transaction. -/
def resolveTx (c tx : ℕ) : Transaction :=
  { transaction_type := TransactionType.Resolve, client_id := c, tx_id := tx,
    amount := none }

/-- Record builder for a chargeback transaction. -/
def chargebackTx (c tx : ℕ) : Transaction :=
  { transaction_type := TransactionType.Chargeback, client_id := c, tx_id := tx,
    amount := none }

/-- Amount 1.0 converts to 10000 cent parts. -/
lemma cents_one : get_amount_in_cent_parts 1 = 10000 := by
  norm_num [get_amount_in_cent_parts, roundHalfAway, Rat.floor_def]
  rfl

/-- Amount 2.0 converts to 20000 cent parts. -/
lemma cents_two : get_amount_in_cent_parts 2 = 20000 := by
  norm_num [get_amount_in_cent_parts, roundHalfAway, Rat.floor_def]
  rfl

/-- Amount 25.50 converts to 255000 cent parts. -/
lemma cents_25_50 : get_amount_in_cent_parts (51 / 2) = 255000 := by
  norm_num [get_amount_in_cent_parts, roundHalfAway, Rat.floor_def]
  rfl

/-- Amount 12.25 converts to 122500 cent parts. -/
lemma cents_12_25 : get_amount_in_cent_parts (49 / 4) = 122500 := by
  norm_num [get_amount_in_cent_parts, roundHalfAway, Rat.floor_def]
  rfl

/-- A negative amount saturates to 0 cent parts under the as-u64 cast. -/
lemma cents_neg_25 : get_amount_in_cent_parts (-25) = 0 := by
  norm_num [get_amount_in_cent_parts, roundHalfAway, Rat.floor_def]

/-- Amount 2 ^ 51 overflows the u64 range and saturates to u64::MAX. -/
lemma cents_pow51 : get_amount_in_cent_parts (2 ^ 51) = 2 ^ 64 - 1 := by
  norm_num [get_amount_in_cent_parts, roundHalfAway, Rat.floor_def]
  rfl

lemma u64Mod_pos : 0 < u64Mod := by norm_num [u64Mod]

/-- Wrapping addition is plain addition when there is no overflow. -/
lemma wadd_eq_add {x y : ℕ} (h : x + y < u64Mod) : wadd x y = x + y :=
  Nat.mod_eq_of_lt h

/-- Wrapping subtraction is plain subtraction when there is no underflow. -/
lemma wsub_eq_sub {x y : ℕ} (hyx : y ≤ x) (hx : x < u64Mod) :
    wsub x y = x - y := by
  have hy : y % u64Mod = y := Nat.mod_eq_of_lt (lt_of_le_of_lt hyx hx)
  have hstep : x + (u64Mod - y) = (x - y) + u64Mod := by omega
  rw [wsub, hy, hstep, Nat.add_mod_right]
  exact Nat.mod_eq_of_lt (by omega)

/-- Wrapping subtraction undoes wrapping addition of the same value. -/
lemma wsub_wadd_cancel {x : ℕ} (y : ℕ) (hx : x < u64Mod) :
    wsub (wadd x y) y = x := by
  have hstep : x + y + (u64Mod - y % u64Mod) = x + (y / u64Mod + 1) * u64Mod := by
    simp only [u64Mod]
    omega
  rw [wsub, wadd, Nat.mod_add_mod, hstep, Nat.add_mul_mod_self_right]
  exact Nat.mod_eq_of_lt hx

/-- Wrapping results always stay below the modulus. -/
lemma wadd_lt (x y : ℕ) : wadd x y < u64Mod := Nat.mod_lt _ u64Mod_pos

lemma wsub_lt (x y : ℕ) : wsub x y < u64Mod := Nat.mod_lt _ u64Mod_pos

/-- Lookup after inserting at the same key. -/
lemma lookupTx_insertTx_self (m : TxMap) (k : ℕ) (v : Bool × Transaction) :
    lookupTx (insertTx m k v) k = some v := by
  induction m with
  | nil => simp [insertTx, lookupTx]
  | cons hd tl ih =>
      obtain ⟨k', v'⟩ := hd
      by_cases hk : k' = k
      · simp [insertTx, hk, lookupTx]
      · simp [insertTx, hk, lookupTx, ih]

/-- Lookup after a flag update at the same key. -/
lemma lookupTx_setFlagTx_self {m : TxMap} {k : ℕ} {fl : Bool} {stored : Transaction}
    (h : lookupTx m k = some (fl, stored)) (b : Bool) :
    lookupTx (setFlagTx m k b) k = some (b, stored) := by
  induction m with
  | nil => simp [lookupTx] at h
  | cons hd tl ih =>
      obtain ⟨k', fl', stored'⟩ := hd
      by_cases hk : k' = k
      · simp [lookupTx, hk] at h
        simp [setFlagTx, hk, lookupTx, h.1, h.2]
      · simp [lookupTx, hk] at h
        simp [setFlagTx, hk, lookupTx, ih h]

/-- A successful lookup returns an element of the list. -/
lemma mem_of_lookupTx {m : TxMap} {k : ℕ} {v : Bool × Transaction}
    (h : lookupTx m k = some v) : (k, v) ∈ m := by
  induction m with
  | nil => simp [lookupTx] at h
  | cons hd tl ih =>
      obtain ⟨k', v'⟩ := hd
      by_cases hk : k' = k
      · simp [lookupTx, hk] at h
        simp [hk, h]
      · simp [lookupTx, hk] at h
        exact List.mem_cons_of_mem _ (ih h)

/-- Inserting an undisputed entry preserves the all-flags-false property. -/
lemma insertTx_flags_false {m : TxMap} (k : ℕ) (t : Transaction)
    (h : ∀ e ∈ m, e.2.1 = false) :
    ∀ e ∈ insertTx m k (false, t), e.2.1 = false := by
  induction m with
  | nil => simp [insertTx]
  | cons hd tl ih =>
      obtain ⟨k', v'⟩ := hd
      intro e he
      by_cases hk : k' = k
      · simp [insertTx, hk] at he
        rcases he with he | he
        · simp [he]
        · exact h e (List.mem_cons_of_mem _ he)
      · simp only [insertTx, if_neg hk] at he
        rcases List.mem_cons.mp he with he | he
        · exact h e (he ▸ List.mem_cons_self _ _)
        · exact ih (fun e' he' => h e' (List.mem_cons_of_mem _ he')) e he

/-- C1 (counterexample): after deposit(tx=1, 2.00) and dispute(tx=1) the
account holds held = total = 20000 cent parts, so held ≤ total, yet
get_available reports the full total 2.00 rather than total − held = 0: the
claimed equation available = total − held fails on the code. -/
theorem C1_counterexample :
    (applyAll (Account.new 1) [depositTx 1 1 2, disputeTx 1 1]).held ≤
      (applyAll (Account.new 1) [depositTx 1 1 2, disputeTx 1 1]).total
    ∧ (applyAll (Account.new 1) [depositTx 1 1 2, disputeTx 1 1]).get_available ≠
        (applyAll (Account.new 1) [depositTx 1 1 2, disputeTx 1 1]).get_total -
          (applyAll (Account.new 1) [depositTx 1 1 2, disputeTx 1 1]).get_held := by
  have hs : applyAll (Account.new 1) [depositTx 1 1 2, disputeTx 1 1]
      = { client_id := 1, held := 20000, total := 20000, locked := false,
          transactions := [(1, (true, depositTx 1 1 2))] } := by
    simp [applyAll, Account.handle, Account.deposit, Account.dispute, depositTx,
      disputeTx, Account.new, lookupTx, insertTx, setFlagTx, wadd, u64Mod, cents_two]
  rw [hs]
  refine ⟨le_refl _, ?_⟩
  norm_num [Account.get_available, Account.get_total, Account.get_held,
    get_amount_as_decimal]

/-- C1 (amended): the reported available balance equals the full total (not
total minus held) whenever held ≤ total, and is reported as zero when held
exceeds total. -/
theorem C1_available_reports_total (a : Account) :
    (a.held ≤ a.total → a.get_available = a.get_total)
    ∧ (a.total < a.held → a.get_available = 0) := by
  constructor
  · intro h
    simp [Account.get_available, Account.get_total, Nat.not_lt.mpr h]
  · intro h
    simp [Account.get_available, h]

/-- Witness for C1: on a fresh account with held = 0 ≤ total = 0 the reported
available balance equals the reported total. -/
theorem C1_witness :
    (Account.new 3).get_available = (Account.new 3).get_total :=
  (C1_available_reports_total (Account.new 3)).1 (by simp [Account.new])

/-- C3 (confirmed): whenever a transaction handler reports any OperationError,
the account state — held, total, locked and the stored transaction map — is
returned exactly unchanged. -/
theorem C3_error_leaves_state_unchanged (a : Account) (t : Transaction)
    (e : OperationError) (h : (a.handle t).2 = some e) : (a.handle t).1 = a := by
  cases ht : t.transaction_type
  case Deposit =>
    cases ha : t.amount <;>
      simp [Account.handle, Account.deposit, ht, ha] at h ⊢
  case Withdrawal =>
    cases ha : t.amount with
    | none => simp [Account.handle, Account.withdraw, ht, ha]
    | some x =>
        by_cases hlt : a.total < get_amount_in_cent_parts x <;>
          simp [Account.handle, Account.withdraw, ht, ha, hlt] at h ⊢
  case Dispute =>
    rcases hl : lookupTx a.transactions t.tx_id with _ | ⟨fl, stored⟩
    · simp [Account.handle, Account.dispute, ht, hl]
    · cases fl <;> simp [Account.handle, Account.dispute, ht, hl] at h ⊢
  case Resolve =>
    rcases hl : lookupTx a.transactions t.tx_id with _ | ⟨fl, stored⟩
    · simp [Account.handle, Account.resolve, ht, hl]
    · cases fl
      · simp [Account.handle, Account.resolve, ht, hl]
      · cases hst : stored.transaction_type <;>
          simp [Account.handle, Account.resolve, ht, hl, hst] at h ⊢
  case Chargeback =>
    rcases hl : lookupTx a.transactions t.tx_id with _ | ⟨fl, stored⟩
    · simp [Account.handle, Account.chargeback, ht, hl]
    · cases fl
      · simp [Account.handle, Account.chargeback, ht, hl]
      · cases hst : stored.transaction_type <;>
          simp [Account.handle, Account.chargeback, ht, hl, hst] at h ⊢

/-- Witness for C3: disputing the unknown tx_id 5 on a fresh account fails and
leaves the account exactly as it was. -/
theorem C3_witness : ((Account.new 1).handle (disputeTx 1 5)).1 = Account.new 1 :=
  C3_error_leaves_state_unchanged (Account.new 1) (disputeTx 1 5)
    (OperationError.TransactionNotFound 1 5)
    (by simp [Account.handle, Account.dispute, disputeTx, Account.new, lookupTx])

/-- C6 (confirmed): a chargeback whose referenced stored transaction is a
disputed Withdrawal fails with InvalidTransactionForChargeback and returns the
account unchanged; in the concrete scenario deposit(tx=6, 25.50),
withdraw(tx=7, 12.25), dispute(tx=7), chargeback(tx=7), the chargeback fails
and the final state keeps total = 13.25, held = 12.25, locked = false. -/
theorem C6_chargeback_withdrawal_rejected (a : Account) (t stored : Transaction)
    (hl : lookupTx a.transactions t.tx_id = some (true, stored))
    (hst : stored.transaction_type = TransactionType.Withdrawal)
    (ht : t.transaction_type = TransactionType.Chargeback) :
    a.handle t = (a, some (OperationError.InvalidTransactionForChargeback
        stored.client_id stored.tx_id))
    ∧ ((applyAll (Account.new 11)
          [depositTx 11 6 (51 / 2), withdrawalTx 11 7 (49 / 4), disputeTx 11 7,
            chargebackTx 11 7]).total = 132500
        ∧ (applyAll (Account.new 11)
            [depositTx 11 6 (51 / 2), withdrawalTx 11 7 (49 / 4), disputeTx 11 7,
              chargebackTx 11 7]).held = 122500
        ∧ (applyAll (Account.new 11)
            [depositTx 11 6 (51 / 2), withdrawalTx 11 7 (49 / 4), disputeTx 11 7,
              chargebackTx 11 7]).locked = false
        ∧ ((applyAll (Account.new 11)
            [depositTx 11 6 (51 / 2), withdrawalTx 11 7 (49 / 4), disputeTx 11 7]).handle
              (chargebackTx 11 7)).2
            = some (OperationError.InvalidTransactionForChargeback 11 7)) := by
  constructor
  · simp [Account.handle, Account.chargeback, ht, hl, hst]
  · refine ⟨?_, ?_, ?_, ?_⟩ <;>
      simp [applyAll, Account.handle, Account.deposit, Account.withdraw,
        Account.dispute, Account.chargeback, depositTx, withdrawalTx, disputeTx,
        chargebackTx, Account.new, lookupTx, insertTx, setFlagTx, wadd, wsub,
        u64Mod, cents_25_50, cents_12_25]

/-- Witness for C6: a concrete account storing tx 7 as a disputed withdrawal
rejects the chargeback of tx 7 with InvalidTransactionForChargeback. -/
theorem C6_witness :
    ({ client_id := 11, held := 122500, total := 132500, locked := false,
        transactions := [(7, (true, withdrawalTx 11 7 (49 / 4)))] } :
          Account).handle (chargebackTx 11 7)
      = ({ client_id := 11, held := 122500, total := 132500, locked := false,
            transactions := [(7, (true, withdrawalTx 11 7 (49 / 4)))] },
          some (OperationError.InvalidTransactionForChargeback 11 7)) :=
  (C6_chargeback_withdrawal_rejected
    { client_id := 11, held := 122500, total := 132500, locked := false,
      transactions := [(7, (true, withdrawalTx 11 7 (49 / 4)))] }
    (chargebackTx 11 7) (withdrawalTx 11 7 (49 / 4))
    (by simp [lookupTx, chargebackTx]) rfl rfl).1

/-- C7 (counterexample): depositing the negative amount −25.00 succeeds but
adds 0 to total, not round(−25 × 10000) = −250000: the claimed conversion
round(a × 10000) fails for negative amounts because the as-u64 cast
saturates at zero. -/
theorem C7_counterexample :
    ((Account.new 5).handle (depositTx 5 3 (-25))).2 = none
    ∧ ((Account.new 5).handle (depositTx 5 3 (-25))).1.total = 0
    ∧ roundHalfAway ((-25) * 10000) = -250000
    ∧ (((Account.new 5).handle (depositTx 5 3 (-25))).1.total : ℤ)
        ≠ ((Account.new 5).total : ℤ) + roundHalfAway ((-25) * 10000) := by
  have hr : roundHalfAway ((-25 : ℚ) * 10000) = -250000 := by
    norm_num [roundHalfAway, Rat.floor_def]
  have h2 : ((Account.new 5).handle (depositTx 5 3 (-25))).1.total = 0 := by
    simp [Account.handle, Account.deposit, depositTx, Account.new, insertTx,
      wadd, u64Mod, cents_neg_25]
  refine ⟨?_, h2, hr, ?_⟩
  · simp [Account.handle, Account.deposit, depositTx, Account.new]
  · rw [h2, hr]
    norm_num [Account.new]

/-- C7 (amended): a deposit whose amount is present always succeeds, including
for negative amounts, and adds get_amount_in_cent_parts of the amount to total
(wrapping u64 addition); the fixed-point conversion equals round(a × 10000)
whenever that value lies in the u64 range, but saturates to 0 for negative
amounts, so a negative deposit leaves total unchanged. -/
theorem C7_deposit_conversion (a : Account) (t : Transaction) (x : ℚ)
    (ht : t.transaction_type = TransactionType.Deposit) (hx : t.amount = some x) :
    (a.handle t).2 = none
    ∧ (a.handle t).1.total = wadd a.total (get_amount_in_cent_parts x)
    ∧ (x < 0 → get_amount_in_cent_parts x = 0)
    ∧ (x < 0 → a.total < u64Mod → (a.handle t).1.total = a.total)
    ∧ (∀ q : ℚ, 0 ≤ roundHalfAway (q * 10000) →
        roundHalfAway (q * 10000) ≤ 2 ^ 64 - 1 →
        (get_amount_in_cent_parts q : ℤ) = roundHalfAway (q * 10000)) := by
  have hneg : x < 0 → get_amount_in_cent_parts x = 0 := by
    intro hxneg
    have h1 : x * 10000 < 0 := by nlinarith
    have h2 : ¬ (0 : ℚ) ≤ x * 10000 := not_le.mpr h1
    have h3 : (0 : ℤ) ≤ ⌊-(x * 10000) + 1 / 2⌋ := by
      apply Int.floor_nonneg.mpr
      nlinarith
    have h4 : roundHalfAway (x * 10000) ≤ 0 := by
      simp only [roundHalfAway, if_neg h2]
      omega
    simp only [get_amount_in_cent_parts]
    have h5 : min (roundHalfAway (x * 10000)) ((2 : ℤ) ^ 64 - 1) ≤ 0 :=
      le_trans (min_le_left _ _) h4
    exact Int.toNat_eq_zero.mpr h5
  refine ⟨?_, ?_, hneg, ?_, ?_⟩
  · simp [Account.handle, Account.deposit, ht, hx]
  · simp [Account.handle, Account.deposit, ht, hx]
  · intro hxneg htot
    simp [Account.handle, Account.deposit, ht, hx, hneg hxneg, wadd,
      Nat.mod_eq_of_lt htot]
  · intro q h0 hle
    simp only [get_amount_in_cent_parts, min_eq_left hle]
    exact Int.toNat_of_nonneg h0

/-- Witness for C7: a deposit of −25.00 on a fresh account succeeds, converts
to 0 cent parts, and leaves total at 0. -/
theorem C7_witness :
    ((Account.new 5).handle (depositTx 5 3 (-25))).2 = none
    ∧ get_amount_in_cent_parts (-25) = 0
    ∧ ((Account.new 5).handle (depositTx 5 3 (-25))).1.total = (Account.new 5).total := by
  have h := C7_deposit_conversion (Account.new 5) (depositTx 5 3 (-25)) (-25) rfl rfl
  exact ⟨h.1, h.2.2.1 (by norm_num),
    h.2.2.2.1 (by norm_num) (by norm_num [Account.new, u64Mod])⟩

/-- States reached from a no-hold, all-flags-false state by transactions that
are never Dispute and never Chargeback keep held = 0 and every stored flag
false: a withdrawal or deposit stores an undisputed entry, and a resolve on an
undisputed entry is rejected without a state change. -/
lemma applyAll_no_dispute (ts : List Transaction) : ∀ (s : Account),
    (∀ t ∈ ts, t.transaction_type ≠ TransactionType.Dispute
      ∧ t.transaction_type ≠ TransactionType.Chargeback) →
    s.held = 0 → (∀ e ∈ s.transactions, e.2.1 = false) →
    (applyAll s ts).held = 0
    ∧ (∀ e ∈ (applyAll s ts).transactions, e.2.1 = false) := by
  induction ts with
  | nil => intro s _ hheld hflags; exact ⟨hheld, hflags⟩
  | cons t rest ih =>
      intro s hmem hheld hflags
      obtain ⟨⟨hnd, hnc⟩, hrest⟩ := List.forall_mem_cons.mp hmem
      have happly : applyAll s (t :: rest) = applyAll (s.handle t).1 rest := rfl
      rw [happly]
      cases hty : t.transaction_type
      case Deposit =>
        cases ha : t.amount with
        | none =>
            have hstep : (s.handle t).1 = s := by
              simp [Account.handle, Account.deposit, hty, ha]
            rw [hstep]
            exact ih s hrest hheld hflags
        | some x =>
            have hstep : (s.handle t).1
                = { s with
                    total := wadd s.total (get_amount_in_cent_parts x),
                    transactions := insertTx s.transactions t.tx_id (false, t) } := by
              simp [Account.handle, Account.deposit, hty, ha]
            rw [hstep]
            exact ih _ hrest hheld (insertTx_flags_false _ _ hflags)
      case Withdrawal =>
        cases ha : t.amount with
        | none =>
            have hstep : (s.handle t).1 = s := by
              simp [Account.handle, Account.withdraw, hty, ha]
            rw [hstep]
            exact ih s hrest hheld hflags
        | some x =>
            by_cases hlt : s.total < get_amount_in_cent_parts x
            · have hstep : (s.handle t).1 = s := by
                simp [Account.handle, Account.withdraw, hty, ha, hlt]
              rw [hstep]
              exact ih s hrest hheld hflags
            · have hstep : (s.handle t).1
                  = { s with
                      total := wsub s.total (get_amount_in_cent_parts x),
                      transactions := insertTx s.transactions t.tx_id (false, t) } := by
                simp [Account.handle, Account.withdraw, hty, ha, hlt]
              rw [hstep]
              exact ih _ hrest hheld (insertTx_flags_false _ _ hflags)
      case Dispute => exact absurd hty hnd
      case Resolve =>
        rcases hl : lookupTx s.transactions t.tx_id with _ | ⟨fl, stored⟩
        · have hstep : (s.handle t).1 = s := by
            simp [Account.handle, Account.resolve, hty, hl]
          rw [hstep]
          exact ih s hrest hheld hflags
        · have hfl : fl = false := hflags _ (mem_of_lookupTx hl)
          have hstep : (s.handle t).1 = s := by
            simp [Account.handle, Account.resolve, hty, hl, hfl]
          rw [hstep]
          exact ih s hrest hheld hflags
      case Chargeback => exact absurd hty hnc

/-- C2 (counterexample): the sequence deposit(tx=1, 1.00), withdraw(tx=2,
1.00), dispute(tx=2) contains no chargeback, every step succeeds, and it
leaves the account with total = 0 < held = 10000 cent parts: held ≤ total is
not preserved by deposits, withdrawals and disputes alone. -/
theorem C2_counterexample :
    (depositTx 1 1 1).transaction_type ≠ TransactionType.Chargeback
    ∧ (withdrawalTx 1 2 1).transaction_type ≠ TransactionType.Chargeback
    ∧ (disputeTx 1 2).transaction_type ≠ TransactionType.Chargeback
    ∧ (applyAll (Account.new 1)
        [depositTx 1 1 1, withdrawalTx 1 2 1, disputeTx 1 2]).total <
      (applyAll (Account.new 1)
        [depositTx 1 1 1, withdrawalTx 1 2 1, disputeTx 1 2]).held := by
  refine ⟨by simp [depositTx], by simp [withdrawalTx], by simp [disputeTx], ?_⟩
  have hs : applyAll (Account.new 1)
      [depositTx 1 1 1, withdrawalTx 1 2 1, disputeTx 1 2]
      = { client_id := 1, held := 10000, total := 0, locked := false,
          transactions := [(1, (false, depositTx 1 1 1)),
            (2, (true, withdrawalTx 1 2 1))] } := by
    simp [applyAll, Account.handle, Account.deposit, Account.withdraw,
      Account.dispute, depositTx, withdrawalTx, disputeTx, Account.new,
      lookupTx, insertTx, setFlagTx, wadd, wsub, u64Mod, cents_one]
  rw [hs]
  norm_num

/-- C2 (amended): held ≤ total holds for every account state reachable from a
fresh account by deposits, withdrawals and resolves alone (no dispute, hence
no chargeback is possible either); a state with held > total is already
reachable without any chargeback, via disputing a withdrawal. -/
theorem C2_held_le_total_without_dispute (c : ℕ) (ts : List Transaction)
    (h : ∀ t ∈ ts, t.transaction_type ≠ TransactionType.Dispute
      ∧ t.transaction_type ≠ TransactionType.Chargeback) :
    (applyAll (Account.new c) ts).held ≤ (applyAll (Account.new c) ts).total := by
  have hinv := applyAll_no_dispute ts (Account.new c) h (by simp [Account.new])
    (by simp [Account.new])
  simp [hinv.1]

/-- Witness for C2: a deposit followed by a full withdrawal keeps
held = 0 ≤ total. -/
theorem C2_witness :
    (applyAll (Account.new 1) [depositTx 1 1 1, withdrawalTx 1 2 1]).held ≤
      (applyAll (Account.new 1) [depositTx 1 1 1, withdrawalTx 1 2 1]).total :=
  C2_held_le_total_without_dispute 1 [depositTx 1 1 1, withdrawalTx 1 2 1]
    (by simp [depositTx, withdrawalTx])

/-- Conservation of the total under deposit/withdrawal sequences, generalized
over the starting state: while the running total cannot overflow u64, the
final total plus the successfully withdrawn cents equals the starting total
plus all deposited cents, and held is untouched. -/
lemma applyAll_deposit_withdraw (ts : List Transaction) : ∀ (s : Account),
    (∀ t ∈ ts, (t.transaction_type = TransactionType.Deposit
      ∨ t.transaction_type = TransactionType.Withdrawal) ∧ t.amount.isSome) →
    s.total + sumDepositCents ts < u64Mod →
    (applyAll s ts).total + sumSuccessfulWithdrawalCents s ts
        = s.total + sumDepositCents ts
    ∧ (applyAll s ts).held = s.held := by
  induction ts with
  | nil =>
      intro s _ _
      simp [applyAll, sumDepositCents, sumSuccessfulWithdrawalCents]
  | cons t rest ih =>
      intro s hmem hov
      obtain ⟨⟨hty, hamt⟩, hrest⟩ := List.forall_mem_cons.mp hmem
      obtain ⟨x, hx⟩ := Option.isSome_iff_exists.mp hamt
      have happly : applyAll s (t :: rest) = applyAll (s.handle t).1 rest := rfl
      rcases hty with hty | hty
      · -- a deposit: adds its cents to total and contributes to sumDepositCents
        have hsumD : sumDepositCents (t :: rest)
            = get_amount_in_cent_parts x + sumDepositCents rest := by
          simp [sumDepositCents, hty, hx]
        rw [hsumD] at hov
        have hnowrap : wadd s.total (get_amount_in_cent_parts x)
            = s.total + get_amount_in_cent_parts x := wadd_eq_add (by omega)
        have hstep : (s.handle t).1
            = { s with
                total := s.total + get_amount_in_cent_parts x,
                transactions := insertTx s.transactions t.tx_id (false, t) } := by
          simp [Account.handle, Account.deposit, hty, hx, hnowrap]
        have hsumW : sumSuccessfulWithdrawalCents s (t :: rest)
            = sumSuccessfulWithdrawalCents
                { s with
                  total := s.total + get_amount_in_cent_parts x,
                  transactions := insertTx s.transactions t.tx_id (false, t) }
                rest := by
          simp [sumSuccessfulWithdrawalCents, hty, hx, hstep]
        have hih := ih
          { s with
            total := s.total + get_amount_in_cent_parts x,
            transactions := insertTx s.transactions t.tx_id (false, t) }
          hrest (by simp only []; omega)
        rw [happly, hstep, hsumW, hsumD]
        simp only [] at hih ⊢
        omega
      · -- a withdrawal: either rejected or subtracted and counted
        have hsumD : sumDepositCents (t :: rest) = sumDepositCents rest := by
          simp [sumDepositCents, hty, hx]
        rw [hsumD] at hov
        by_cases hlt : s.total < get_amount_in_cent_parts x
        · have hstep : (s.handle t).1 = s := by
            simp [Account.handle, Account.withdraw, hty, hx, hlt]
          have hsumW : sumSuccessfulWithdrawalCents s (t :: rest)
              = sumSuccessfulWithdrawalCents s rest := by
            simp [sumSuccessfulWithdrawalCents, hty, hx, hlt, hstep]
          have hih := ih s hrest (by omega)
          rw [happly, hstep, hsumW, hsumD]
          omega
        · have hle : get_amount_in_cent_parts x ≤ s.total := Nat.le_of_not_lt hlt
          have hstot : s.total < u64Mod := by omega
          have hnowrap : wsub s.total (get_amount_in_cent_parts x)
              = s.total - get_amount_in_cent_parts x := wsub_eq_sub hle hstot
          have hstep : (s.handle t).1
              = { s with
                  total := s.total - get_amount_in_cent_parts x,
                  transactions := insertTx s.transactions t.tx_id (false, t) } := by
            simp [Account.handle, Account.withdraw, hty, hx, hlt, hnowrap]
          have hsumW : sumSuccessfulWithdrawalCents s (t :: rest)
              = get_amount_in_cent_parts x
                + sumSuccessfulWithdrawalCents
                    { s with
                      total := s.total - get_amount_in_cent_parts x,
                      transactions := insertTx s.transactions t.tx_id (false, t) }
                    rest := by
            simp [sumSuccessfulWithdrawalCents, hty, hx, hlt, hstep]
          have hih := ih
            { s with
              total := s.total - get_amount_in_cent_parts x,
              transactions := insertTx s.transactions t.tx_id (false, t) }
            hrest (by simp only []; omega)
          rw [happly, hstep, hsumW, hsumD]
          simp only [] at hih ⊢
          omega

/-- C4 (counterexample): two deposits of 2 ^ 51 each convert (saturating) to
u64::MAX cent parts; their u64 sum wraps, so the final total differs from the
sum of the deposited cents minus the (zero) successful withdrawals: the
claimed conservation law fails without a no-overflow proviso. -/
theorem C4_counterexample :
    (depositTx 1 1 (2 ^ 51)).transaction_type = TransactionType.Deposit
    ∧ (depositTx 1 1 (2 ^ 51)).amount.isSome
    ∧ (depositTx 1 2 (2 ^ 51)).transaction_type = TransactionType.Deposit
    ∧ (depositTx 1 2 (2 ^ 51)).amount.isSome
    ∧ (applyAll (Account.new 1) [depositTx 1 1 (2 ^ 51), depositTx 1 2 (2 ^ 51)]).total
        ≠ sumDepositCents [depositTx 1 1 (2 ^ 51), depositTx 1 2 (2 ^ 51)]
          - sumSuccessfulWithdrawalCents (Account.new 1)
              [depositTx 1 1 (2 ^ 51), depositTx 1 2 (2 ^ 51)] := by
  refine ⟨rfl, rfl, rfl, rfl, ?_⟩
  simp [applyAll, Account.handle, Account.deposit, depositTx, Account.new,
    insertTx, wadd, u64Mod, cents_pow51, sumDepositCents,
    sumSuccessfulWithdrawalCents]

/-- C4 (amended): for every sequence of deposits and withdrawals (amounts
present) applied to a fresh account, provided the deposited cents sum to less
than 2 ^ 64 (no u64 overflow), the final total equals the deposited cents
minus the successfully withdrawn cents, held stays 0 so available equals
total, and a withdrawal fails with InsufficientBalance exactly when its
converted amount exceeds the current total, otherwise subtracting it. -/
theorem C4_total_conservation (c : ℕ) (ts : List Transaction)
    (hvalid : ∀ t ∈ ts, (t.transaction_type = TransactionType.Deposit
      ∨ t.transaction_type = TransactionType.Withdrawal) ∧ t.amount.isSome)
    (hov : sumDepositCents ts < u64Mod) :
    (applyAll (Account.new c) ts).total
        = sumDepositCents ts - sumSuccessfulWithdrawalCents (Account.new c) ts
    ∧ sumSuccessfulWithdrawalCents (Account.new c) ts ≤ sumDepositCents ts
    ∧ (applyAll (Account.new c) ts).held = 0
    ∧ (applyAll (Account.new c) ts).get_available
        = (applyAll (Account.new c) ts).get_total
    ∧ (∀ (s : Account) (t : Transaction) (x : ℚ),
        t.transaction_type = TransactionType.Withdrawal → t.amount = some x →
        (((s.handle t).2
            = some (OperationError.InsufficientBalance t.client_id t.tx_id)
          ↔ s.total < get_amount_in_cent_parts x)
        ∧ (get_amount_in_cent_parts x ≤ s.total → s.total < u64Mod →
            (s.handle t).1.total = s.total - get_amount_in_cent_parts x
            ∧ (s.handle t).2 = none))) := by
  have hmain := applyAll_deposit_withdraw ts (Account.new c) hvalid
    (by simp [Account.new]; exact hov)
  have h0t : (Account.new c).total = 0 := rfl
  rw [h0t] at hmain
  have hheld0 : (applyAll (Account.new c) ts).held = 0 := by
    rw [hmain.2]; rfl
  have hm1 := hmain.1
  refine ⟨by omega, by omega, hheld0, ?_, ?_⟩
  · simp [Account.get_available, Account.get_total, hheld0]
  · intro s t x hty hx
    constructor
    · by_cases hlt : s.total < get_amount_in_cent_parts x <;>
        simp [Account.handle, Account.withdraw, hty, hx, hlt]
    · intro hle hstot
      have hlt : ¬ s.total < get_amount_in_cent_parts x := Nat.not_lt.mpr hle
      simp [Account.handle, Account.withdraw, hty, hx, hlt, wsub_eq_sub hle hstot]

/-- Witness for C4: deposit 25.50 then withdraw 12.25 on a fresh account
yields total = 132500 = 255000 − 122500 cent parts with held = 0. -/
theorem C4_witness :
    (applyAll (Account.new 11) [depositTx 11 6 (51 / 2), withdrawalTx 11 7 (49 / 4)]).total
        = sumDepositCents [depositTx 11 6 (51 / 2), withdrawalTx 11 7 (49 / 4)]
          - sumSuccessfulWithdrawalCents (Account.new 11)
              [depositTx 11 6 (51 / 2), withdrawalTx 11 7 (49 / 4)]
    ∧ (applyAll (Account.new 11)
        [depositTx 11 6 (51 / 2), withdrawalTx 11 7 (49 / 4)]).held = 0 := by
  have h := C4_total_conservation 11
    [depositTx 11 6 (51 / 2), withdrawalTx 11 7 (49 / 4)]
    (by simp [depositTx, withdrawalTx])
    (by simp [sumDepositCents, depositTx, withdrawalTx, cents_25_50, u64Mod])
  exact ⟨h.1, h.2.2.1⟩

/-- C5 (confirmed): a successful Resolve of a transaction under dispute clears
the dispute flag; for a stored Deposit it subtracts the amount from held only,
leaving total unchanged, and for a stored Withdrawal it subtracts the amount
from held and adds it back to total; a Dispute followed by a Resolve on an
undisputed stored Deposit restores held to its starting value with total
unchanged at both steps. -/
theorem C5_resolve_semantics (a : Account) (t stored : Transaction)
    (hl : lookupTx a.transactions t.tx_id = some (true, stored))
    (ht : t.transaction_type = TransactionType.Resolve) :
    (stored.transaction_type = TransactionType.Deposit →
      (a.handle t).2 = none
      ∧ (a.handle t).1.total = a.total
      ∧ (a.handle t).1.held
          = wsub a.held (get_amount_in_cent_parts (stored.amount.getD 0))
      ∧ (get_amount_in_cent_parts (stored.amount.getD 0) ≤ a.held →
          a.held < u64Mod →
          (a.handle t).1.held
            = a.held - get_amount_in_cent_parts (stored.amount.getD 0))
      ∧ lookupTx (a.handle t).1.transactions t.tx_id = some (false, stored))
    ∧ (stored.transaction_type = TransactionType.Withdrawal →
      (a.handle t).2 = none
      ∧ (a.handle t).1.held
          = wsub a.held (get_amount_in_cent_parts (stored.amount.getD 0))
      ∧ (a.handle t).1.total
          = wadd a.total (get_amount_in_cent_parts (stored.amount.getD 0))
      ∧ (a.total + get_amount_in_cent_parts (stored.amount.getD 0) < u64Mod →
          (a.handle t).1.total
            = a.total + get_amount_in_cent_parts (stored.amount.getD 0))
      ∧ lookupTx (a.handle t).1.transactions t.tx_id = some (false, stored))
    ∧ (∀ (b : Account) (d r st2 : Transaction),
        lookupTx b.transactions d.tx_id = some (false, st2) →
        st2.transaction_type = TransactionType.Deposit →
        d.transaction_type = TransactionType.Dispute →
        r.transaction_type = TransactionType.Resolve →
        r.tx_id = d.tx_id → b.held < u64Mod →
        (b.handle d).1.total = b.total
        ∧ ((b.handle d).1.handle r).1.total = b.total
        ∧ ((b.handle d).1.handle r).1.held = b.held) := by
  refine ⟨?_, ?_, ?_⟩
  · intro hst
    have hstep : a.handle t
        = ({ a with
            held := wsub a.held (get_amount_in_cent_parts (stored.amount.getD 0)),
            transactions := setFlagTx a.transactions t.tx_id false }, none) := by
      simp [Account.handle, Account.resolve, ht, hl, hst]
    refine ⟨by simp [hstep], by simp [hstep], by simp [hstep], ?_, ?_⟩
    · intro hle hheld
      simp [hstep, wsub_eq_sub hle hheld]
    · rw [hstep]
      exact lookupTx_setFlagTx_self hl false
  · intro hst
    have hstep : a.handle t
        = ({ a with
            held := wsub a.held (get_amount_in_cent_parts (stored.amount.getD 0)),
            total := wadd a.total (get_amount_in_cent_parts (stored.amount.getD 0)),
            transactions := setFlagTx a.transactions t.tx_id false }, none) := by
      simp [Account.handle, Account.resolve, ht, hl, hst]
    refine ⟨by simp [hstep], by simp [hstep], by simp [hstep], ?_, ?_⟩
    · intro hov
      simp [hstep, wadd_eq_add hov]
    · rw [hstep]
      exact lookupTx_setFlagTx_self hl false
  · intro b d r st2 hbl hst2 hd hr hrtx hbheld
    have hdstep : (b.handle d).1
        = { b with
            transactions := setFlagTx b.transactions d.tx_id true,
            held := wadd b.held (get_amount_in_cent_parts (st2.amount.getD 0)) } := by
      simp [Account.handle, Account.dispute, hd, hbl]
    have hlook : lookupTx (setFlagTx b.transactions d.tx_id true) d.tx_id
        = some (true, st2) := lookupTx_setFlagTx_self hbl true
    have hrstep : ((b.handle d).1.handle r).1
        = { b with
            transactions :=
              setFlagTx (setFlagTx b.transactions d.tx_id true) d.tx_id false,
            held := wsub
              (wadd b.held (get_amount_in_cent_parts (st2.amount.getD 0)))
              (get_amount_in_cent_parts (st2.amount.getD 0)) } := by
      rw [hdstep]
      simp [Account.handle, Account.resolve, hr, hrtx, hlook, hst2]
    refine ⟨by simp [hdstep], by simp [hrstep], ?_⟩
    rw [hrstep]
    simp [wsub_wadd_cancel _ hbheld]

/-- Witness for C5: resolving the disputed deposit stored under tx 5 succeeds,
leaves total at 50000 cent parts, and returns held from 10000 to
10000 − 10000 cent parts with the dispute flag cleared. -/
theorem C5_witness :
    (({ client_id := 1, held := 10000, total := 50000, locked := false,
        transactions := [(5, (true, depositTx 1 5 1))] } : Account).handle
          (resolveTx 1 5)).2 = none
    ∧ (({ client_id := 1, held := 10000, total := 50000, locked := false,
          transactions := [(5, (true, depositTx 1 5 1))] } : Account).handle
            (resolveTx 1 5)).1.total = 50000
    ∧ (({ client_id := 1, held := 10000, total := 50000, locked := false,
          transactions := [(5, (true, depositTx 1 5 1))] } : Account).handle
            (resolveTx 1 5)).1.held
        = 10000 - get_amount_in_cent_parts ((depositTx 1 5 1).amount.getD 0)
    ∧ lookupTx (({ client_id := 1, held := 10000, total := 50000, locked := false,
                   transactions := [(5, (true, depositTx 1 5 1))] } : Account).handle
            (resolveTx 1 5)).1.transactions (resolveTx 1 5).tx_id
        = some (false, depositTx 1 5 1) := by
  have h := C5_resolve_semantics
    { client_id := 1, held := 10000, total := 50000, locked := false,
      transactions := [(5, (true, depositTx 1 5 1))] }
    (resolveTx 1 5) (depositTx 1 5 1) (by simp [lookupTx, resolveTx]) rfl
  have hdep := h.1 rfl
  exact ⟨hdep.1, hdep.2.1,
    hdep.2.2.2.1 (by simp [depositTx, cents_one]) (by norm_num [u64Mod]),
    hdep.2.2.2.2⟩

/-- No handler ever resets the locked flag: every branch either leaves the
account untouched, updates fields other than locked, or sets locked to true
(chargeback success). -/
lemma handle_locked_mono (a : Account) (t : Transaction) (h : a.locked = true) :
    (a.handle t).1.locked = true := by
  cases ht : t.transaction_type
  case Deposit =>
    cases ha : t.amount <;> simp [Account.handle, Account.deposit, ht, ha, h]
  case Withdrawal =>
    cases ha : t.amount with
    | none => simp [Account.handle, Account.withdraw, ht, ha, h]
    | some x =>
        by_cases hlt : a.total < get_amount_in_cent_parts x <;>
          simp [Account.handle, Account.withdraw, ht, ha, hlt, h]
  case Dispute =>
    rcases hl : lookupTx a.transactions t.tx_id with _ | ⟨fl, stored⟩
    · simp [Account.handle, Account.dispute, ht, hl, h]
    · cases fl <;> simp [Account.handle, Account.dispute, ht, hl, h]
  case Resolve =>
    rcases hl : lookupTx a.transactions t.tx_id with _ | ⟨fl, stored⟩
    · simp [Account.handle, Account.resolve, ht, hl, h]
    · cases fl
      · simp [Account.handle, Account.resolve, ht, hl, h]
      · cases hst : stored.transaction_type <;>
          simp [Account.handle, Account.resolve, ht, hl, hst, h]
  case Chargeback =>
    rcases hl : lookupTx a.transactions t.tx_id with _ | ⟨fl, stored⟩
    · simp [Account.handle, Account.chargeback, ht, hl, h]
    · cases fl
      · simp [Account.handle, Account.chargeback, ht, hl, h]
      · cases hst : stored.transaction_type <;>
          simp [Account.handle, Account.chargeback, ht, hl, hst, h]

/-- The locked flag stays true across any whole sequence of transactions. -/
lemma applyAll_locked_mono (ts : List Transaction) : ∀ (a : Account),
    a.locked = true → (applyAll a ts).locked = true := by
  induction ts with
  | nil => intro a h; exact h
  | cons t rest ih =>
      intro a h
      exact ih (a.handle t).1 (handle_locked_mono a t h)

/-- No handler reads the locked flag: flipping it to true changes neither the
error outcome nor the resulting held, total and stored-transaction map. -/
lemma handle_ignores_locked (a : Account) (t : Transaction) :
    ((({ a with locked := true } : Account).handle t).2 = (a.handle t).2)
    ∧ (({ a with locked := true } : Account).handle t).1.total = (a.handle t).1.total
    ∧ (({ a with locked := true } : Account).handle t).1.held = (a.handle t).1.held
    ∧ (({ a with locked := true } : Account).handle t).1.transactions
        = (a.handle t).1.transactions := by
  cases ht : t.transaction_type
  case Deposit =>
    cases ha : t.amount <;> simp [Account.handle, Account.deposit, ht, ha]
  case Withdrawal =>
    cases ha : t.amount with
    | none => simp [Account.handle, Account.withdraw, ht, ha]
    | some x =>
        by_cases hlt : a.total < get_amount_in_cent_parts x <;>
          simp [Account.handle, Account.withdraw, ht, ha, hlt]
  case Dispute =>
    rcases hl : lookupTx a.transactions t.tx_id with _ | ⟨fl, stored⟩
    · simp [Account.handle, Account.dispute, ht, hl]
    · cases fl <;> simp [Account.handle, Account.dispute, ht, hl]
  case Resolve =>
    rcases hl : lookupTx a.transactions t.tx_id with _ | ⟨fl, stored⟩
    · simp [Account.handle, Account.resolve, ht, hl]
    · cases fl
      · simp [Account.handle, Account.resolve, ht, hl]
      · cases hst : stored.transaction_type <;>
          simp [Account.handle, Account.resolve, ht, hl, hst]
  case Chargeback =>
    rcases hl : lookupTx a.transactions t.tx_id with _ | ⟨fl, stored⟩
    · simp [Account.handle, Account.chargeback, ht, hl]
    · cases fl
      · simp [Account.handle, Account.chargeback, ht, hl]
      · cases hst : stored.transaction_type <;>
          simp [Account.handle, Account.chargeback, ht, hl, hst]

/-- C8 (confirmed): once locked is true no operation resets it, over one step
or any sequence; the lock is set by a successful chargeback of a disputed
Deposit, which also subtracts the disputed amount from held and total; and
locking never blocks processing — a handler run with the locked flag forced
true yields the same error outcome, total, held and stored map as with it
false. -/
theorem C8_lock_permanent_and_nonblocking (a : Account) (t : Transaction) :
    (a.locked = true → (a.handle t).1.locked = true)
    ∧ (∀ ts : List Transaction, a.locked = true → (applyAll a ts).locked = true)
    ∧ ((({ a with locked := true } : Account).handle t).2 = (a.handle t).2
        ∧ (({ a with locked := true } : Account).handle t).1.total
            = (a.handle t).1.total
        ∧ (({ a with locked := true } : Account).handle t).1.held
            = (a.handle t).1.held
        ∧ (({ a with locked := true } : Account).handle t).1.transactions
            = (a.handle t).1.transactions)
    ∧ (∀ stored : Transaction,
        lookupTx a.transactions t.tx_id = some (true, stored) →
        stored.transaction_type = TransactionType.Deposit →
        t.transaction_type = TransactionType.Chargeback →
        (a.handle t).2 = none
        ∧ (a.handle t).1.locked = true
        ∧ (a.handle t).1.held
            = wsub a.held (get_amount_in_cent_parts (stored.amount.getD 0))
        ∧ (a.handle t).1.total
            = wsub a.total (get_amount_in_cent_parts (stored.amount.getD 0))) := by
  refine ⟨handle_locked_mono a t, fun ts => applyAll_locked_mono ts a,
    handle_ignores_locked a t, ?_⟩
  intro stored hl hst ht
  have hstep : a.handle t
      = ({ a with
          held := wsub a.held (get_amount_in_cent_parts (stored.amount.getD 0)),
          total := wsub a.total (get_amount_in_cent_parts (stored.amount.getD 0)),
          locked := true }, none) := by
    simp [Account.handle, Account.chargeback, ht, hl, hst]
  simp [hstep]

/-- Witness for C8: a deposit applied to a locked account leaves the lock in
place, and a whole two-transaction sequence does so as well. -/
theorem C8_witness :
    (({ client_id := 1, held := 0, total := 0, locked := true,
        transactions := [] } : Account).handle (depositTx 1 1 1)).1.locked = true
    ∧ (applyAll
        { client_id := 1, held := 0, total := 0, locked := true,
          transactions := [] }
        [depositTx 1 1 1, withdrawalTx 1 2 1]).locked = true := by
  have h := C8_lock_permanent_and_nonblocking
    { client_id := 1, held := 0, total := 0, locked := true, transactions := [] }
    (depositTx 1 1 1)
  exact ⟨h.1 rfl, h.2.1 [depositTx 1 1 1, withdrawalTx 1 2 1] rfl⟩

/-- C9 (confirmed): a successful chargeback leaves the stored dispute flag
set, so a second chargeback of the same tx_id passes the not-under-dispute
guard and subtracts the amount from held and total again; concretely, after
deposit(tx=1, 1.00), dispute(tx=1), chargeback(tx=1), the account has
held = 0 while tx 1 is still flagged disputed, and the second chargeback is
accepted and performs the unguarded u64 subtraction held − 10000 with
held = 0 < 10000, wrapping to 2 ^ 64 − 10000. -/
theorem C9_double_chargeback (a : Account) (t stored : Transaction)
    (hl : lookupTx a.transactions t.tx_id = some (true, stored))
    (hst : stored.transaction_type = TransactionType.Deposit)
    (ht : t.transaction_type = TransactionType.Chargeback) :
    ((a.handle t).2 = none
      ∧ (a.handle t).1.transactions = a.transactions
      ∧ lookupTx (a.handle t).1.transactions t.tx_id = some (true, stored)
      ∧ (a.handle t).1.held
          = wsub a.held (get_amount_in_cent_parts (stored.amount.getD 0))
      ∧ (a.handle t).1.total
          = wsub a.total (get_amount_in_cent_parts (stored.amount.getD 0)))
    ∧ ((applyAll (Account.new 1)
          [depositTx 1 1 1, disputeTx 1 1, chargebackTx 1 1]).held = 0
        ∧ lookupTx (applyAll (Account.new 1)
            [depositTx 1 1 1, disputeTx 1 1, chargebackTx 1 1]).transactions 1
            = some (true, depositTx 1 1 1)
        ∧ (applyAll (Account.new 1)
            [depositTx 1 1 1, disputeTx 1 1, chargebackTx 1 1]).held
            < get_amount_in_cent_parts ((depositTx 1 1 1).amount.getD 0)
        ∧ ((applyAll (Account.new 1)
            [depositTx 1 1 1, disputeTx 1 1, chargebackTx 1 1]).handle
              (chargebackTx 1 1)).2 = none
        ∧ ((applyAll (Account.new 1)
            [depositTx 1 1 1, disputeTx 1 1, chargebackTx 1 1]).handle
              (chargebackTx 1 1)).1.held = u64Mod - 10000) := by
  constructor
  · have hstep : a.handle t
        = ({ a with
            held := wsub a.held (get_amount_in_cent_parts (stored.amount.getD 0)),
            total := wsub a.total (get_amount_in_cent_parts (stored.amount.getD 0)),
            locked := true }, none) := by
      simp [Account.handle, Account.chargeback, ht, hl, hst]
    exact ⟨by simp [hstep], by simp [hstep], by rw [hstep]; exact hl,
      by simp [hstep], by simp [hstep]⟩
  · have hs3 : applyAll (Account.new 1)
        [depositTx 1 1 1, disputeTx 1 1, chargebackTx 1 1]
        = { client_id := 1, held := 0, total := 0, locked := true,
            transactions := [(1, (true, depositTx 1 1 1))] } := by
      simp [applyAll, Account.handle, Account.deposit, Account.dispute,
        Account.chargeback, depositTx, disputeTx, chargebackTx, Account.new,
        lookupTx, insertTx, setFlagTx, wadd, wsub, u64Mod, cents_one]
    rw [hs3]
    refine ⟨rfl, by simp [lookupTx], by simp [depositTx, cents_one], ?_, ?_⟩ <;>
      simp [Account.handle, Account.chargeback, chargebackTx, lookupTx,
        depositTx, wsub, u64Mod, cents_one]

/-- Witness for C9: a second chargeback of tx 1 on the post-chargeback state
(held = 0, tx 1 still flagged) is accepted and wraps held around. -/
theorem C9_witness :
    (({ client_id := 1, held := 0, total := 0, locked := true,
        transactions := [(1, (true, depositTx 1 1 1))] } : Account).handle
          (chargebackTx 1 1)).2 = none
    ∧ (({ client_id := 1, held := 0, total := 0, locked := true,
          transactions := [(1, (true, depositTx 1 1 1))] } : Account).handle
            (chargebackTx 1 1)).1.held
        = wsub 0 (get_amount_in_cent_parts ((depositTx 1 1 1).amount.getD 0)) := by
  have h := C9_double_chargeback
    { client_id := 1, held := 0, total := 0, locked := true,
      transactions := [(1, (true, depositTx 1 1 1))] }
    (chargebackTx 1 1) (depositTx 1 1 1) (by simp [lookupTx, chargebackTx]) rfl rfl
  exact ⟨h.1.1, h.1.2.2.2.1⟩

/-- C10 (confirmed): a new Deposit reusing the tx_id of a transaction under
dispute succeeds and overwrites the stored entry with an undisputed copy of
the new transaction while held keeps the previously disputed amount; a
Withdrawal does the same when covered by the balance; afterwards any Resolve
or Chargeback of that tx_id is rejected with ResolveNotUnderDispute or
ChargebackNotUnderDispute, leaving the state (and so the stranded held
amount) unchanged. -/
theorem C10_tx_reuse_under_dispute (a : Account) (t stored : Transaction)
    (x : ℚ) (hl : lookupTx a.transactions t.tx_id = some (true, stored))
    (hx : t.amount = some x) :
    (t.transaction_type = TransactionType.Deposit →
      (a.handle t).2 = none
      ∧ lookupTx (a.handle t).1.transactions t.tx_id = some (false, t)
      ∧ (a.handle t).1.held = a.held)
    ∧ (t.transaction_type = TransactionType.Withdrawal →
        ¬ a.total < get_amount_in_cent_parts x →
      (a.handle t).2 = none
      ∧ lookupTx (a.handle t).1.transactions t.tx_id = some (false, t)
      ∧ (a.handle t).1.held = a.held)
    ∧ (∀ (b : Account) (r : Transaction), r.tx_id = t.tx_id →
        lookupTx b.transactions t.tx_id = some (false, t) →
        (r.transaction_type = TransactionType.Resolve →
          b.handle r = (b, some (OperationError.ResolveNotUnderDispute
            t.client_id t.tx_id)))
        ∧ (r.transaction_type = TransactionType.Chargeback →
          b.handle r = (b, some (OperationError.ChargebackNotUnderDispute
            t.client_id t.tx_id)))) := by
  refine ⟨?_, ?_, ?_⟩
  · intro ht
    have hstep : a.handle t
        = ({ a with
            total := wadd a.total (get_amount_in_cent_parts x),
            transactions := insertTx a.transactions t.tx_id (false, t) }, none) := by
      simp [Account.handle, Account.deposit, ht, hx]
    exact ⟨by simp [hstep], by rw [hstep]; exact lookupTx_insertTx_self _ _ _,
      by simp [hstep]⟩
  · intro ht hlt
    have hstep : a.handle t
        = ({ a with
            total := wsub a.total (get_amount_in_cent_parts x),
            transactions := insertTx a.transactions t.tx_id (false, t) }, none) := by
      simp [Account.handle, Account.withdraw, ht, hx, hlt]
    exact ⟨by simp [hstep], by rw [hstep]; exact lookupTx_insertTx_self _ _ _,
      by simp [hstep]⟩
  · intro b r hrtx hbl
    constructor
    · intro hr
      simp [Account.handle, Account.resolve, hr, hrtx, hbl]
    · intro hr
      simp [Account.handle, Account.chargeback, hr, hrtx, hbl]

/-- Witness for C10: redepositing under the disputed tx 5 succeeds, stores the
new transaction undisputed, keeps held at 10000, and the follow-up resolve of
tx 5 is rejected. -/
theorem C10_witness :
    (({ client_id := 1, held := 10000, total := 10000, locked := false,
        transactions := [(5, (true, depositTx 1 5 1))] } : Account).handle
          (depositTx 1 5 2)).2 = none
    ∧ (({ client_id := 1, held := 10000, total := 10000, locked := false,
          transactions := [(5, (true, depositTx 1 5 1))] } : Account).handle
            (depositTx 1 5 2)).1.held = 10000
    ∧ (({ client_id := 1, held := 10000, total := 30000, locked := false,
          transactions := [(5, (false, depositTx 1 5 2))] } : Account).handle
            (resolveTx 1 5))
        = ({ client_id := 1, held := 10000, total := 30000, locked := false,
             transactions := [(5, (false, depositTx 1 5 2))] },
            some (OperationError.ResolveNotUnderDispute 1 5)) := by
  have h := C10_tx_reuse_under_dispute
    { client_id := 1, held := 10000, total := 10000, locked := false,
      transactions := [(5, (true, depositTx 1 5 1))] }
    (depositTx 1 5 2) (depositTx 1 5 1) 2 (by simp [lookupTx, depositTx]) rfl
  have hd := h.1 rfl
  refine ⟨hd.1, hd.2.2, ?_⟩
  exact (h.2.2
    { client_id := 1, held := 10000, total := 30000, locked := false,
      transactions := [(5, (false, depositTx 1 5 2))] }
    (resolveTx 1 5) rfl (by simp [lookupTx, depositTx])).1 rfl

end RustyPayments
